import Mathlib

/-!
Shallow embedding of `mls_mpm/src/lib.rs` (2D MLS-MPM simulation step).

Machine `f32` values are modelled as exact rationals (`ℚ`): the spec's
numerical claims are stated for exact real arithmetic.  The `as_i32` cast
of a float is truncation toward zero; the `as_u32` cast of an `i32` wraps
modulo `2^32`; `usize` subtraction wraps modulo `2^64`.  The grid is a
`List Cell`; Rust's panicking index is modelled with `List.getD`/`List.set`
and the in-range facts are proved separately.
-/

/-- glam `Vec2`, with `ℚ` components in place of `f32`. -/
structure Vec2 where
  x : ℚ
  y : ℚ
deriving DecidableEq, Repr

/-- glam `Mat2`, stored as its two columns (glam is column-major). -/
structure Mat2 where
  col0 : Vec2
  col1 : Vec2
deriving DecidableEq, Repr

instance : Add Vec2 := ⟨fun a b => ⟨a.x + b.x, a.y + b.y⟩⟩

instance : Sub Vec2 := ⟨fun a b => ⟨a.x - b.x, a.y - b.y⟩⟩

instance : Zero Vec2 := ⟨⟨0, 0⟩⟩

/-- `Vec2 * f32` componentwise scalar multiplication. -/
def Vec2.smul (v : Vec2) (k : ℚ) : Vec2 := ⟨v.x * k, v.y * k⟩

/-- `Vec2 / f32` componentwise scalar division. -/
def Vec2.sdiv (v : Vec2) (k : ℚ) : Vec2 := ⟨v.x / k, v.y / k⟩

/-- glam `Vec2::powf(2.0)`: componentwise square. -/
def Vec2.sq (v : Vec2) : Vec2 := ⟨v.x ^ 2, v.y ^ 2⟩

/-- glam `Vec2::floor`: componentwise floor, kept as a `Vec2`. -/
def Vec2.floorV (v : Vec2) : Vec2 := ⟨(⌊v.x⌋ : ℚ), (⌊v.y⌋ : ℚ)⟩

instance : Add Mat2 := ⟨fun a b => ⟨a.col0 + b.col0, a.col1 + b.col1⟩⟩

instance : Zero Mat2 := ⟨⟨0, 0⟩⟩

/-- glam `Mat2::from_cols`. -/
def Mat2.fromCols (c0 c1 : Vec2) : Mat2 := ⟨c0, c1⟩

/-- glam `Mat2 * Vec2` (columns times components). -/
def Mat2.mulVec (m : Mat2) (v : Vec2) : Vec2 := m.col0.smul v.x + m.col1.smul v.y

/-- glam `Mat2 * f32` componentwise scalar multiplication. -/
def Mat2.smul (m : Mat2) (k : ℚ) : Mat2 := ⟨m.col0.smul k, m.col1.smul k⟩

/-- Rust `as` cast `f32 → i32` for in-range values: truncation toward zero. -/
def truncQ (q : ℚ) : ℤ := if 0 ≤ q then ⌊q⌋ else ⌈q⌉

/-- glam `Vec2::as_i32` componentwise, giving the integer pair `IVec2`. -/
def Vec2.asI32 (v : Vec2) : ℤ × ℤ := (truncQ v.x, truncQ v.y)

/-- Rust `as` cast `i32 → u32`: two's-complement wrap modulo `2^32`. -/
def asU32 (i : ℤ) : ℕ := (i % 2 ^ 32).toNat

/-- Rust `usize` subtraction: wraps modulo `2^64` on underflow. -/
def usizeSub (a b : ℕ) : ℕ := if b ≤ a then a - b else a + 2 ^ 64 - b

/-- `Particle2D` from `lib.rs`. -/
structure Particle2D where
  position : Vec2
  velocity : Vec2
  momentum : Mat2
  mass : ℚ
deriving DecidableEq, Repr

/-- `Cell` from `lib.rs`. -/
structure Cell where
  velocity : Vec2
  mass : ℚ
deriving DecidableEq, Repr

/-- `Cell::zero()`. -/
def Cell.zero : Cell := ⟨0, 0⟩

/-- `Simulation2D` from `lib.rs`. -/
structure Simulation2D where
  x_size : ℕ
  y_size : ℕ
  num_cells : ℕ
  particles : List Particle2D
  gravity_times_dt : Vec2
  dt : ℚ
  steps_run : ℕ
deriving DecidableEq, Repr

/-- `Simulation2D::new`. -/
def Simulation2D.new (x_size y_size : ℕ) (particles : List Particle2D)
    (gravity : Vec2) (dt : ℚ) : Simulation2D :=
  { x_size := x_size
    y_size := y_size
    num_cells := x_size * y_size
    particles := particles
    gravity_times_dt := gravity.smul dt
    dt := dt
    steps_run := 0 }

/-- `half` constant in `step`. -/
def half : Vec2 := ⟨1/2, 1/2⟩

/-- `tq` constant in `step`. -/
def tq : Vec2 := ⟨3/4, 3/4⟩

/-- `cell_diff = position - position.floor() - half`. -/
def cellDiff (pos : Vec2) : Vec2 := pos - pos.floorV - half

/-- The three quadratic B-spline weight vectors computed in `step`. -/
def bsplineWeights (cell_diff : Vec2) : List Vec2 :=
  [ ((half - cell_diff).sq).smul (1/2)
  , tq - cell_diff.sq
  , ((half + cell_diff).sq).smul (1/2) ]

/-- `(-1i32..=1).zip(weights.iter())`: offsets paired with their weights. -/
def offsetWeights (cell_diff : Vec2) : List (ℤ × Vec2) :=
  List.zip [-1, 0, 1] (bsplineWeights cell_diff)

/-- `cell_index = particle.position.as_i32()` in the P2G loop (line 53). -/
def p2gCellIndex (p : Particle2D) : ℤ × ℤ := p.position.asI32

/-- `cell_index = particle.position.as_i32()` in the G2P loop (line 104). -/
def g2pCellIndex (p : Particle2D) : ℤ × ℤ := p.position.asI32

/-- The flat grid index `cell_position.y * x_size + cell_position.x` for one
stencil offset, with `cell_position = (cell_index + offset).as_u32()`. -/
def stencilIndex (x_size : ℕ) (ci : ℤ × ℤ) (xo yo : ℤ) : ℕ :=
  asU32 (ci.2 + yo) * x_size + asU32 (ci.1 + xo)

/-- `cell_dist = cell_position.as_f32() - particle.position + half`. -/
def cellDist (ci : ℤ × ℤ) (xo yo : ℤ) (pos : Vec2) : Vec2 :=
  ⟨(asU32 (ci.1 + xo) : ℚ) - pos.x + 1/2, (asU32 (ci.2 + yo) : ℚ) - pos.y + 1/2⟩

/-- Body of the inner P2G loop: accumulate one particle's contribution to one
stencil cell (lines 57-68 of `lib.rs`). -/
def p2gCellUpdate (x_size : ℕ) (p : Particle2D) (ci : ℤ × ℤ)
    (xow yow : ℤ × Vec2) (g : List Cell) : List Cell :=
  let cell_dist := cellDist ci xow.1 yow.1 p.position
  let q := p.momentum.mulVec cell_dist
  let idx := stencilIndex x_size ci xow.1 yow.1
  let cell := g.getD idx Cell.zero
  let mass_contrib := xow.2.x * yow.2.y * p.mass
  g.set idx ⟨cell.velocity + (p.velocity + q).smul mass_contrib,
             cell.mass + mass_contrib⟩

/-- P2G scatter of one particle onto the grid (lines 44-71 of `lib.rs`). -/
def p2gParticle (x_size : ℕ) (g : List Cell) (p : Particle2D) : List Cell :=
  let ows := offsetWeights (cellDiff p.position)
  let ci := p2gCellIndex p
  ows.foldl (fun g1 xow => ows.foldl (fun g2 yow => p2gCellUpdate x_size p ci xow yow g2) g1) g

/-- The grid immediately after the P2G scatter phase of `step`. -/
def p2gGrid (s : Simulation2D) : List Cell :=
  s.particles.foldl (p2gParticle s.x_size) (List.replicate s.num_cells Cell.zero)

/-- Phase B body for the cell at flat index `i` (lines 74-90 of `lib.rs`);
cells with `mass > 0` get momentum-to-velocity conversion, gravity, and
boundary zeroing, the rest are untouched. -/
def resolveCell (x_size y_size : ℕ) (gtdt : Vec2) (i : ℕ) (cell : Cell) : Cell :=
  if 0 < cell.mass then
    let v1 := cell.velocity.sdiv cell.mass
    let v2 := v1 + gtdt
    let x := i % x_size
    let y := i / x_size
    let vx := if x < 2 ∨ usizeSub x_size 3 < x then 0 else v2.x
    let vy := if y < 2 ∨ usizeSub y_size 3 < y then 0 else v2.y
    ⟨⟨vx, vy⟩, cell.mass⟩
  else cell

/-- Phase B: grid velocity resolution over the whole grid. -/
def updateGrid (x_size y_size : ℕ) (gtdt : Vec2) (g : List Cell) : List Cell :=
  g.enum.map (fun ic => resolveCell x_size y_size gtdt ic.1 ic.2)

/-- Body of the inner G2P loop: fold one stencil cell's contribution into the
`(B, velocity)` accumulator (lines 108-125 of `lib.rs`). -/
def g2pAccum (x_size : ℕ) (grid : List Cell) (p : Particle2D) (ci : ℤ × ℤ)
    (acc : Mat2 × Vec2) (xow yow : ℤ × Vec2) : Mat2 × Vec2 :=
  let weight := xow.2.x * yow.2.y
  let cell_dist := cellDist ci xow.1 yow.1 p.position
  let weighted_velocity :=
    ((grid.getD (stencilIndex x_size ci xow.1 yow.1) Cell.zero).velocity).smul weight
  let term := Mat2.fromCols (weighted_velocity.smul cell_dist.x)
                            (weighted_velocity.smul cell_dist.y)
  (acc.1 + term, acc.2 + weighted_velocity)

/-- G2P gather, APIC reconstruction, advection and clamp for one particle
(lines 93-135 of `lib.rs`). -/
def g2pParticle (x_size y_size : ℕ) (dt : ℚ) (grid : List Cell)
    (p : Particle2D) : Particle2D :=
  let ows := offsetWeights (cellDiff p.position)
  let ci := g2pCellIndex p
  let bv := ows.foldl
    (fun a1 xow => ows.foldl (fun a2 yow => g2pAccum x_size grid p ci a2 xow yow) a1)
    ((0 : Mat2), (0 : Vec2))
  let velocity := bv.2
  let momentum := bv.1.smul 4
  let pos1 := p.position + velocity.smul dt
  { position := ⟨max 1 (min pos1.x ((x_size : ℚ) - 2)),
                 max 1 (min pos1.y ((y_size : ℚ) - 2))⟩
    velocity := velocity
    momentum := momentum
    mass := p.mass }

/-- `Simulation2D::step`. -/
def Simulation2D.step (s : Simulation2D) : Simulation2D :=
  let grid := updateGrid s.x_size s.y_size s.gravity_times_dt (p2gGrid s)
  { s with
    steps_run := s.steps_run + 1
    particles := s.particles.map (g2pParticle s.x_size s.y_size s.dt grid) }

/-- The structural invariant established by `Simulation2D::new`: the grid
buffer covers `x_size * y_size` cells. -/
def Simulation2D.WF (s : Simulation2D) : Prop := s.num_cells = s.x_size * s.y_size

instance (s : Simulation2D) : Decidable s.WF := by
  unfold Simulation2D.WF; infer_instance

/-- A particle position lies in the valid domain `[1, size-2]` on each axis. -/
def posInBounds (x_size y_size : ℕ) (pos : Vec2) : Prop :=
  1 ≤ pos.x ∧ pos.x ≤ (x_size : ℚ) - 2 ∧ 1 ≤ pos.y ∧ pos.y ≤ (y_size : ℚ) - 2

instance (x_size y_size : ℕ) (pos : Vec2) : Decidable (posInBounds x_size y_size pos) := by
  unfold posInBounds; infer_instance

/-- All of a simulation's particles lie in the valid domain. -/
def Simulation2D.AllInBounds (s : Simulation2D) : Prop :=
  ∀ p ∈ s.particles, posInBounds s.x_size s.y_size p.position

/-- Example simulation used to witness hypothesis satisfiability. -/
def exSim : Simulation2D :=
  Simulation2D.new 5 5 [⟨⟨5/2, 5/2⟩, ⟨1, 0⟩, 0, 1⟩] ⟨0, -1/20⟩ 1

/-- A zero-motion simulation: no gravity, zero velocity and momentum. -/
def zSim : Simulation2D := Simulation2D.new 5 5 [⟨⟨5/2, 5/2⟩, 0, 0, 1⟩] 0 1

/-- Two coincident particles of masses `1` and `-1`: their scattered masses
cancel on every stencil cell while their velocity contributions do not. -/
def cancelSim : Simulation2D :=
  Simulation2D.new 5 5 [⟨⟨5/2, 5/2⟩, ⟨1, 0⟩, 0, 1⟩, ⟨⟨5/2, 5/2⟩, 0, 0, -1⟩] 0 1

/-- A concrete grid used to witness the Phase B resolution theorem. -/
def witnessGrid : List Cell := (List.replicate 25 Cell.zero).set 12 ⟨⟨1, 1⟩, 2⟩

/-- The nine stencil offsets, x offset paired with y offset. -/
def stencilOffsets : List (ℤ × ℤ) :=
  [(-1, -1), (-1, 0), (-1, 1), (0, -1), (0, 0), (0, 1), (1, -1), (1, 0), (1, 1)]

/-- Written from the spec's words for Phase C (§4.2): per particle, the
velocity is the sum over the nine stencil cells of `weight * cell velocity`,
`B` is the sum of the matrices whose columns are `weighted_velocity * cell_dist.x`
and `weighted_velocity * cell_dist.y`, the momentum is `B * 4.0`, and the
position is advanced by `velocity * dt` then clamped to `[1, size-2]` per
axis.  Used only to compare against `g2pParticle`. -/
def g2pSpecPhaseC (x_size y_size : ℕ) (dt : ℚ) (grid : List Cell)
    (p : Particle2D) : Particle2D :=
  let w := bsplineWeights (cellDiff p.position)
  let ci := p.position.asI32
  let weightOf : ℤ × ℤ → ℚ := fun o =>
    ((w.getD (o.1 + 1).toNat 0).x) * ((w.getD (o.2 + 1).toNat 0).y)
  let wv : ℤ × ℤ → Vec2 := fun o =>
    ((grid.getD (stencilIndex x_size ci o.1 o.2) Cell.zero).velocity).smul (weightOf o)
  let velocity : Vec2 := (stencilOffsets.map wv).sum
  let bMat : Mat2 := (stencilOffsets.map (fun o =>
      Mat2.fromCols ((wv o).smul (cellDist ci o.1 o.2 p.position).x)
                    ((wv o).smul (cellDist ci o.1 o.2 p.position).y))).sum
  let pos1 := p.position + velocity.smul dt
  { position := ⟨max 1 (min pos1.x ((x_size : ℚ) - 2)),
                 max 1 (min pos1.y ((y_size : ℚ) - 2))⟩
    velocity := velocity
    momentum := bMat.smul 4
    mass := p.mass }

/-- Total mass accumulated on a grid. -/
def massSum (g : List Cell) : ℚ := (g.map Cell.mass).sum

@[simp] theorem Vec2.add_x (a b : Vec2) : (a + b).x = a.x + b.x := rfl

@[simp] theorem Vec2.add_y (a b : Vec2) : (a + b).y = a.y + b.y := rfl

@[simp] theorem Vec2.sub_x (a b : Vec2) : (a - b).x = a.x - b.x := rfl

@[simp] theorem Vec2.sub_y (a b : Vec2) : (a - b).y = a.y - b.y := rfl

@[simp] theorem Vec2.zero_x : (0 : Vec2).x = 0 := rfl

@[simp] theorem Vec2.zero_y : (0 : Vec2).y = 0 := rfl

@[simp] theorem Vec2.smul_x (v : Vec2) (k : ℚ) : (v.smul k).x = v.x * k := rfl

@[simp] theorem Vec2.smul_y (v : Vec2) (k : ℚ) : (v.smul k).y = v.y * k := rfl

@[simp] theorem Vec2.sdiv_x (v : Vec2) (k : ℚ) : (v.sdiv k).x = v.x / k := rfl

@[simp] theorem Vec2.sdiv_y (v : Vec2) (k : ℚ) : (v.sdiv k).y = v.y / k := rfl

@[simp] theorem Vec2.sq_x (v : Vec2) : v.sq.x = v.x ^ 2 := rfl

@[simp] theorem Vec2.sq_y (v : Vec2) : v.sq.y = v.y ^ 2 := rfl

@[simp] theorem Vec2.floorV_x (v : Vec2) : v.floorV.x = (⌊v.x⌋ : ℚ) := rfl

@[simp] theorem Vec2.floorV_y (v : Vec2) : v.floorV.y = (⌊v.y⌋ : ℚ) := rfl

theorem Vec2.ext_xy {a b : Vec2} (hx : a.x = b.x) (hy : a.y = b.y) : a = b := by
  cases a; cases b; simp_all

@[simp] theorem Mat2.add_col0 (a b : Mat2) : (a + b).col0 = a.col0 + b.col0 := rfl

@[simp] theorem Mat2.add_col1 (a b : Mat2) : (a + b).col1 = a.col1 + b.col1 := rfl

@[simp] theorem Mat2.zero_col0 : (0 : Mat2).col0 = 0 := rfl

@[simp] theorem Mat2.zero_col1 : (0 : Mat2).col1 = 0 := rfl

@[simp] theorem Mat2.smul_col0 (m : Mat2) (k : ℚ) : (m.smul k).col0 = m.col0.smul k := rfl

@[simp] theorem Mat2.smul_col1 (m : Mat2) (k : ℚ) : (m.smul k).col1 = m.col1.smul k := rfl

theorem Mat2.ext_cols {a b : Mat2} (h0 : a.col0 = b.col0) (h1 : a.col1 = b.col1) : a = b := by
  cases a; cases b; simp_all

theorem Particle2D.ext_fields {a b : Particle2D} (h1 : a.position = b.position)
    (h2 : a.velocity = b.velocity) (h3 : a.momentum = b.momentum)
    (h4 : a.mass = b.mass) : a = b := by
  cases a; cases b; simp_all

@[simp] theorem Vec2.smul_zero_left (k : ℚ) : (0 : Vec2).smul k = 0 := by
  apply Vec2.ext_xy <;> simp

@[simp] theorem Vec2.smul_zero_right (v : Vec2) : v.smul 0 = 0 := by
  apply Vec2.ext_xy <;> simp

@[simp] theorem Vec2.add_zero_v (v : Vec2) : v + 0 = v := by
  apply Vec2.ext_xy <;> simp

@[simp] theorem Vec2.zero_add_v (v : Vec2) : (0 : Vec2) + v = v := by
  apply Vec2.ext_xy <;> simp

@[simp] theorem Mat2.mulVec_zero_left (v : Vec2) : (0 : Mat2).mulVec v = 0 := by
  simp [Mat2.mulVec]

@[simp] theorem Mat2.add_zero_m (m : Mat2) : m + 0 = m := by
  apply Mat2.ext_cols <;> simp

@[simp] theorem Mat2.smul_zero_left_m (k : ℚ) : (0 : Mat2).smul k = 0 := by
  apply Mat2.ext_cols <;> simp

/-- `g2pParticle` keeps the particle's mass. -/
theorem g2pParticle_mass (x_size y_size : ℕ) (dt : ℚ) (grid : List Cell)
    (p : Particle2D) : (g2pParticle x_size y_size dt grid p).mass = p.mass := rfl

/-- C1: whenever `step` runs on a simulation with `x_size ≥ 5` and
`y_size ≥ 5`, every resulting particle position satisfies
`1 ≤ x ≤ x_size - 2` and `1 ≤ y ≤ y_size - 2`, regardless of the particles'
prior velocities, momenta and positions and of `steps_run`. -/
theorem step_positions_clamped (s : Simulation2D) (hx : 5 ≤ s.x_size)
    (hy : 5 ≤ s.y_size) : s.step.AllInBounds := by
  intro p hp
  have hx' : (5 : ℚ) ≤ (s.x_size : ℚ) := by exact_mod_cast hx
  have hy' : (5 : ℚ) ≤ (s.y_size : ℚ) := by exact_mod_cast hy
  rw [show s.step.x_size = s.x_size from rfl, show s.step.y_size = s.y_size from rfl]
  simp only [Simulation2D.step, List.mem_map] at hp
  obtain ⟨q, hq, rfl⟩ := hp
  unfold g2pParticle posInBounds
  refine ⟨le_max_left _ _, max_le (by linarith) (min_le_right _ _),
          le_max_left _ _, max_le (by linarith) (min_le_right _ _)⟩

/-- C1 witness. -/
theorem step_positions_clamped_witness : exSim.step.AllInBounds :=
  step_positions_clamped exSim (by decide) (by decide)

/-- C8: `step` does not change any particle's mass, the number of particles,
`x_size`, `y_size`, `num_cells`, `gravity_times_dt`, or `dt`. -/
theorem step_frame (s : Simulation2D) :
    s.step.x_size = s.x_size ∧ s.step.y_size = s.y_size ∧
    s.step.num_cells = s.num_cells ∧
    s.step.gravity_times_dt = s.gravity_times_dt ∧ s.step.dt = s.dt ∧
    s.step.particles.length = s.particles.length ∧
    s.step.particles.map Particle2D.mass = s.particles.map Particle2D.mass := by
  refine ⟨rfl, rfl, rfl, rfl, rfl, ?_, ?_⟩
  · simp [Simulation2D.step]
  · simp [Simulation2D.step, List.map_map, Function.comp, g2pParticle_mass]

/-- C9: `new` initializes `steps_run = 0` and `gravity_times_dt = gravity * dt`
componentwise, `step` increments `steps_run` by exactly 1, and after `n` calls
on a fresh simulation `steps_run = n`. -/
theorem steps_run_counter :
    (∀ x y ps g dt, (Simulation2D.new x y ps g dt).steps_run = 0 ∧
        (Simulation2D.new x y ps g dt).gravity_times_dt = ⟨g.x * dt, g.y * dt⟩) ∧
    (∀ s : Simulation2D, s.step.steps_run = s.steps_run + 1) ∧
    (∀ x y ps g dt n,
        (Simulation2D.step^[n] (Simulation2D.new x y ps g dt)).steps_run = n) := by
  have hstep : ∀ s : Simulation2D, s.step.steps_run = s.steps_run + 1 := fun s => rfl
  have hiter : ∀ (n : ℕ) (s : Simulation2D),
      (Simulation2D.step^[n] s).steps_run = s.steps_run + n := by
    intro n
    induction n with
    | zero => intro s; rfl
    | succ n ih =>
        intro s
        rw [Function.iterate_succ_apply', hstep, ih]
        omega
  refine ⟨fun x y ps g dt => ⟨rfl, rfl⟩, hstep, fun x y ps g dt n => ?_⟩
  rw [hiter]
  simp [Simulation2D.new]

/-- C10: `step` is deterministic — two simulations equal in all fields map to
equal results. -/
theorem step_deterministic (s1 s2 : Simulation2D)
    (h1 : s1.x_size = s2.x_size) (h2 : s1.y_size = s2.y_size)
    (h3 : s1.num_cells = s2.num_cells) (h4 : s1.particles = s2.particles)
    (h5 : s1.gravity_times_dt = s2.gravity_times_dt) (h6 : s1.dt = s2.dt)
    (h7 : s1.steps_run = s2.steps_run) : s1.step = s2.step := by
  have : s1 = s2 := by cases s1; cases s2; simp_all
  rw [this]

/-- C10 witness. -/
theorem step_deterministic_witness : exSim.step = exSim.step :=
  step_deterministic exSim exSim rfl rfl rfl rfl rfl rfl rfl

/-- C6: for a particle whose position lies in `[1, size-2]` per axis, the
stencil-centre cell index computed in Phase A (`p2gCellIndex`) and the one
recomputed in Phase C (`g2pCellIndex`) coincide, and both equal the
componentwise floor of the position. -/
theorem cell_index_is_floor (x_size y_size : ℕ) (p : Particle2D)
    (hx : 5 ≤ x_size) (hy : 5 ≤ y_size)
    (hb : posInBounds x_size y_size p.position) :
    p2gCellIndex p = g2pCellIndex p ∧
    p2gCellIndex p = (⌊p.position.x⌋, ⌊p.position.y⌋) := by
  refine ⟨rfl, ?_⟩
  obtain ⟨h1, _, h3, _⟩ := hb
  unfold p2gCellIndex Vec2.asI32 truncQ
  rw [if_pos (le_trans zero_le_one h1), if_pos (le_trans zero_le_one h3)]

/-- C6 witness. -/
theorem cell_index_is_floor_witness :
    p2gCellIndex ⟨⟨5/2, 7/2⟩, ⟨1, 0⟩, 0, 1⟩ = g2pCellIndex ⟨⟨5/2, 7/2⟩, ⟨1, 0⟩, 0, 1⟩ ∧
    p2gCellIndex ⟨⟨5/2, 7/2⟩, ⟨1, 0⟩, 0, 1⟩ = (⌊(5/2 : ℚ)⌋, ⌊(7/2 : ℚ)⌋) :=
  cell_index_is_floor 5 6 ⟨⟨5/2, 7/2⟩, ⟨1, 0⟩, 0, 1⟩ (by decide) (by decide)
    (by norm_num [posInBounds])

/-- `updateGrid` preserves the grid length. -/
theorem updateGrid_length (x_size y_size : ℕ) (gtdt : Vec2) (g : List Cell) :
    (updateGrid x_size y_size gtdt g).length = g.length := by
  simp [updateGrid, List.enum_length]

/-- Pointwise description of `updateGrid`: the cell at flat index `i` is
resolved by `resolveCell` applied at `i`. -/
theorem updateGrid_getD (x_size y_size : ℕ) (gtdt : Vec2) (g : List Cell) (i : ℕ)
    (hi : i < g.length) :
    (updateGrid x_size y_size gtdt g).getD i Cell.zero =
      resolveCell x_size y_size gtdt i (g.getD i Cell.zero) := by
  have hlen : (updateGrid x_size y_size gtdt g).length = g.length :=
    updateGrid_length x_size y_size gtdt g
  rw [List.getD_eq_getElem _ _ (by omega), List.getD_eq_getElem _ _ hi]
  simp [updateGrid, List.getElem_map, List.getElem_enum]

/-- C5: in Phase B, a cell with positive mass has its momentum divided by its
mass, gravity added, and its velocity components zeroed exactly on the
two-cell boundary margin (x-index `< 2` or `> x_size - 3`, y-index `< 2` or
`> y_size - 3`). -/
theorem grid_velocity_resolution (x_size y_size : ℕ) (gtdt : Vec2)
    (g : List Cell) (i : ℕ) (hx : 5 ≤ x_size) (hy : 5 ≤ y_size)
    (hi : i < g.length) (hm : 0 < (g.getD i Cell.zero).mass) :
    (updateGrid x_size y_size gtdt g).getD i Cell.zero =
      ⟨⟨if i % x_size < 2 ∨ x_size - 3 < i % x_size then 0
          else (g.getD i Cell.zero).velocity.x / (g.getD i Cell.zero).mass + gtdt.x,
        if i / x_size < 2 ∨ y_size - 3 < i / x_size then 0
          else (g.getD i Cell.zero).velocity.y / (g.getD i Cell.zero).mass + gtdt.y⟩,
       (g.getD i Cell.zero).mass⟩ := by
  rw [updateGrid_getD _ _ _ _ _ hi]
  unfold resolveCell
  rw [if_pos hm]
  have h3x : usizeSub x_size 3 = x_size - 3 := if_pos (by omega)
  have h3y : usizeSub y_size 3 = y_size - 3 := if_pos (by omega)
  simp [h3x, h3y]

/-- C5 witness. -/
theorem grid_velocity_resolution_witness :
    (updateGrid 5 5 ⟨0, -1/20⟩ witnessGrid).getD 12 Cell.zero =
      ⟨⟨if 12 % 5 < 2 ∨ 5 - 3 < 12 % 5 then 0
          else (witnessGrid.getD 12 Cell.zero).velocity.x /
            (witnessGrid.getD 12 Cell.zero).mass + (⟨0, -1/20⟩ : Vec2).x,
        if 12 / 5 < 2 ∨ 5 - 3 < 12 / 5 then 0
          else (witnessGrid.getD 12 Cell.zero).velocity.y /
            (witnessGrid.getD 12 Cell.zero).mass + (⟨0, -1/20⟩ : Vec2).y⟩,
       (witnessGrid.getD 12 Cell.zero).mass⟩ :=
  grid_velocity_resolution 5 5 ⟨0, -1/20⟩ witnessGrid 12 (by decide) (by decide)
    (by decide) (by decide)

theorem Vec2.add_def (a b : Vec2) : a + b = ⟨a.x + b.x, a.y + b.y⟩ := rfl

theorem Vec2.smul_def (v : Vec2) (k : ℚ) : v.smul k = ⟨v.x * k, v.y * k⟩ := rfl

theorem Vec2.zero_def : (0 : Vec2) = ⟨0, 0⟩ := rfl

theorem Mat2.madd_def (a b : Mat2) : a + b = ⟨a.col0 + b.col0, a.col1 + b.col1⟩ := rfl

theorem Mat2.msmul_def (m : Mat2) (k : ℚ) : m.smul k = ⟨m.col0.smul k, m.col1.smul k⟩ := rfl

theorem Mat2.mzero_def : (0 : Mat2) = ⟨0, 0⟩ := rfl

/-- The fold computing Phase C for one particle agrees with the spec's
summation form of Phase C. -/
theorem g2p_eq_spec (x_size y_size : ℕ) (dt : ℚ) (grid : List Cell)
    (p : Particle2D) :
    g2pParticle x_size y_size dt grid p = g2pSpecPhaseC x_size y_size dt grid p := by
  have h0 : ((-1:ℤ)+1).toNat = 0 := rfl
  have h1 : ((0:ℤ)+1).toNat = 1 := rfl
  have h2 : ((1:ℤ)+1).toNat = 2 := rfl
  unfold g2pParticle g2pSpecPhaseC g2pAccum offsetWeights g2pCellIndex stencilOffsets
  simp only [bsplineWeights, List.zip, List.zipWith, List.foldl, List.map, List.sum_cons,
    List.sum_nil, h0, h1, h2, List.getD_cons_zero, List.getD_cons_succ]
  simp only [Vec2.add_def, Vec2.smul_def, Vec2.zero_def, Mat2.madd_def, Mat2.msmul_def,
    Mat2.mzero_def, Mat2.fromCols, Particle2D.mk.injEq, Vec2.mk.injEq, Mat2.mk.injEq]
  and_intros <;> first
    | rfl
    | ring

/-- C4: Phase C of `step` computes, for every particle, the velocity as the
sum of the nine weighted grid velocities, the momentum as `4` times the
accumulated APIC matrix `B` (columns `weighted_velocity * cell_dist.x` and
`weighted_velocity * cell_dist.y`), and the position advanced by
`velocity * dt` and clamped to `[1, size-2]` per axis. -/
theorem phaseC_g2p_apic (s : Simulation2D) :
    s.step.particles = s.particles.map
      (g2pSpecPhaseC s.x_size s.y_size s.dt
        (updateGrid s.x_size s.y_size s.gravity_times_dt (p2gGrid s))) := by
  show s.particles.map _ = _
  exact List.map_congr_left (fun p _ =>
    g2p_eq_spec s.x_size s.y_size s.dt
      (updateGrid s.x_size s.y_size s.gravity_times_dt (p2gGrid s)) p)

/-- A fold preserves any invariant preserved by each step. -/
theorem foldl_invariant {α β : Type} (P : α → Prop) (f : α → β → α) :
    ∀ (l : List β) (a : α), P a → (∀ a' b, P a' → b ∈ l → P (f a' b)) →
      P (l.foldl f a)
  | [], _, ha, _ => ha
  | b :: l, a, ha, h =>
      foldl_invariant P f l (f a b) (h a b ha (List.mem_cons_self b l))
        (fun a' b' ha' hb' => h a' b' ha' (List.mem_cons_of_mem _ hb'))

/-- In-bounds coordinates survive the `i32`/`u32` casts: with
`1 ≤ v ≤ size - 2` and a stencil offset in `[-1, 1]`, the unsigned cast of
`trunc v + o` is an in-range column/row index. -/
theorem asU32_stencil_lt (size : ℕ) (v : ℚ) (o : ℤ) (h5 : 5 ≤ size)
    (h1 : 1 ≤ v) (h2 : v ≤ (size : ℚ) - 2) (ho : -1 ≤ o) (ho' : o ≤ 1) :
    asU32 (truncQ v + o) < size := by
  have h0 : (0 : ℚ) ≤ v := le_trans zero_le_one h1
  have htr : truncQ v = ⌊v⌋ := if_pos h0
  have hf1 : (1 : ℤ) ≤ ⌊v⌋ := by
    rw [Int.le_floor]; exact_mod_cast h1
  have hf2 : ⌊v⌋ ≤ (size : ℤ) - 2 := by
    have hle : (⌊v⌋ : ℚ) ≤ (size : ℚ) - 2 := le_trans (Int.floor_le v) h2
    exact_mod_cast hle
  rw [htr]
  unfold asU32
  omega

/-- Every flat grid index computed for an in-bounds particle's 3×3 stencil
lies strictly below `x_size * y_size`. -/
theorem stencilIndex_lt (x_size y_size : ℕ) (pos : Vec2) (xo yo : ℤ)
    (hx : 5 ≤ x_size) (hy : 5 ≤ y_size) (hb : posInBounds x_size y_size pos)
    (hxo : -1 ≤ xo) (hxo' : xo ≤ 1) (hyo : -1 ≤ yo) (hyo' : yo ≤ 1) :
    stencilIndex x_size pos.asI32 xo yo < x_size * y_size := by
  obtain ⟨h1, h2, h3, h4⟩ := hb
  have hcx := asU32_stencil_lt x_size pos.x xo hx h1 h2 hxo hxo'
  have hcy := asU32_stencil_lt y_size pos.y yo hy h3 h4 hyo hyo'
  unfold stencilIndex Vec2.asI32
  calc asU32 (truncQ pos.y + yo) * x_size + asU32 (truncQ pos.x + xo)
      < (asU32 (truncQ pos.y + yo) + 1) * x_size := by
        rw [Nat.succ_mul]; omega
    _ ≤ y_size * x_size := Nat.mul_le_mul_right _ (by omega)
    _ = x_size * y_size := Nat.mul_comm _ _

/-- One P2G cell update keeps the grid length. -/
theorem p2gCellUpdate_length (x_size : ℕ) (p : Particle2D) (ci : ℤ × ℤ)
    (xow yow : ℤ × Vec2) (g : List Cell) :
    (p2gCellUpdate x_size p ci xow yow g).length = g.length := by
  unfold p2gCellUpdate
  simp

/-- One particle's whole P2G scatter keeps the grid length. -/
theorem p2gParticle_length (x_size : ℕ) (g : List Cell) (p : Particle2D) :
    (p2gParticle x_size g p).length = g.length := by
  unfold p2gParticle
  refine foldl_invariant (fun (g' : List Cell) => g'.length = g.length) _ _ _ rfl ?_
  intro g1 xow h1 _
  refine foldl_invariant (fun (g' : List Cell) => g'.length = g.length) _ _ _ h1 ?_
  intro g2 yow h2 _
  rw [p2gCellUpdate_length]; exact h2

/-- The P2G output grid has exactly `num_cells` cells. -/
theorem p2gGrid_length (s : Simulation2D) : (p2gGrid s).length = s.num_cells := by
  unfold p2gGrid
  refine foldl_invariant (fun (g : List Cell) => g.length = s.num_cells) _ _ _ (by simp) ?_
  intro g p hgp _
  rw [p2gParticle_length]; exact hgp

theorem massSum_cons (c : Cell) (l : List Cell) :
    massSum (c :: l) = c.mass + massSum l := by
  simp [massSum]

/-- Setting one in-range cell changes the total mass by the mass delta. -/
theorem massSum_set (g : List Cell) (i : ℕ) (c : Cell) (hi : i < g.length) :
    massSum (g.set i c) = massSum g - (g.getD i Cell.zero).mass + c.mass := by
  induction g generalizing i with
  | nil => simp at hi
  | cons hd tl ih =>
      cases i with
      | zero =>
          rw [List.set_cons_zero, massSum_cons, massSum_cons, List.getD_cons_zero]
          ring
      | succ n =>
          have hn : n < tl.length := by simpa using hi
          rw [List.set_cons_succ, massSum_cons, massSum_cons, List.getD_cons_succ,
            ih n hn]
          ring

/-- One in-range P2G cell update adds exactly its mass contribution. -/
theorem massSum_p2gCellUpdate (x_size : ℕ) (p : Particle2D) (ci : ℤ × ℤ)
    (xow yow : ℤ × Vec2) (g : List Cell)
    (hi : stencilIndex x_size ci xow.1 yow.1 < g.length) :
    massSum (p2gCellUpdate x_size p ci xow yow g) =
      massSum g + xow.2.x * yow.2.y * p.mass := by
  unfold p2gCellUpdate
  rw [massSum_set _ _ _ hi]
  simp only []
  ring

/-- Mass added by the inner (y-offset) loop of P2G for a fixed x-offset. -/
theorem massSum_inner_fold (x_size : ℕ) (p : Particle2D) (ci : ℤ × ℤ)
    (xow : ℤ × Vec2) (l : List (ℤ × Vec2)) (g : List Cell)
    (hin : ∀ yow ∈ l, stencilIndex x_size ci xow.1 yow.1 < g.length) :
    massSum (l.foldl (fun g2 yow => p2gCellUpdate x_size p ci xow yow g2) g) =
      massSum g + (l.map (fun yow => xow.2.x * yow.2.y * p.mass)).sum := by
  induction l generalizing g with
  | nil => simp
  | cons hd tl ih =>
      rw [List.foldl_cons, ih]
      · rw [massSum_p2gCellUpdate _ _ _ _ _ _ (hin hd (List.mem_cons_self _ _))]
        simp only [List.map_cons, List.sum_cons]
        ring
      · intro yow hyow
        rw [p2gCellUpdate_length]
        exact hin yow (List.mem_cons_of_mem _ hyow)

/-- Mass added by the full 3×3 double loop of P2G for one particle. -/
theorem massSum_outer_fold (x_size : ℕ) (p : Particle2D) (ci : ℤ × ℤ)
    (l m : List (ℤ × Vec2)) (g : List Cell)
    (hin : ∀ xow ∈ l, ∀ yow ∈ m, stencilIndex x_size ci xow.1 yow.1 < g.length) :
    massSum (l.foldl (fun g1 xow =>
        m.foldl (fun g2 yow => p2gCellUpdate x_size p ci xow yow g2) g1) g) =
      massSum g +
        (l.map (fun xow => (m.map (fun yow => xow.2.x * yow.2.y * p.mass)).sum)).sum := by
  induction l generalizing g with
  | nil => simp
  | cons hd tl ih =>
      rw [List.foldl_cons, ih]
      · rw [massSum_inner_fold _ _ _ _ _ _ (hin hd (List.mem_cons_self _ _))]
        simp only [List.map_cons, List.sum_cons]
        ring
      · intro xow hxow yow hyow
        have hlen : ∀ (g' : List Cell),
            (m.foldl (fun g2 yow => p2gCellUpdate x_size p ci hd yow g2) g').length
              = g'.length := by
          intro g'
          refine foldl_invariant (fun (gg : List Cell) => gg.length = g'.length) _ _ _ rfl ?_
          intro a b hab _
          rw [p2gCellUpdate_length]; exact hab
        rw [hlen]
        exact hin xow (List.mem_cons_of_mem _ hxow) yow hyow

/-- P2G scatter of one in-bounds particle adds exactly the particle's mass to
the grid total: the nine separable B-spline weights sum to 1. -/
theorem massSum_p2gParticle (x_size y_size : ℕ) (g : List Cell) (p : Particle2D)
    (hx : 5 ≤ x_size) (hy : 5 ≤ y_size) (hlen : g.length = x_size * y_size)
    (hb : posInBounds x_size y_size p.position) :
    massSum (p2gParticle x_size g p) = massSum g + p.mass := by
  unfold p2gParticle
  rw [massSum_outer_fold]
  · congr 1
    simp only [offsetWeights, bsplineWeights, half, tq, List.zip, List.zipWith,
      List.map, List.sum_cons, List.sum_nil, Vec2.smul_x, Vec2.smul_y, Vec2.sub_x,
      Vec2.sub_y, Vec2.add_x, Vec2.add_y, Vec2.sq_x, Vec2.sq_y]
    ring
  · intro xow hxow yow hyow
    rw [hlen]
    have hx1 := List.of_mem_zip (by simpa [offsetWeights] using hxow)
    have hy1 := List.of_mem_zip (by simpa [offsetWeights] using hyow)
    have hxr : xow.1 = -1 ∨ xow.1 = 0 ∨ xow.1 = 1 := by simpa using hx1.1
    have hyr : yow.1 = -1 ∨ yow.1 = 0 ∨ yow.1 = 1 := by simpa using hy1.1
    apply stencilIndex_lt x_size y_size p.position xow.1 yow.1 hx hy hb
    all_goals rcases hxr with h | h | h <;> rcases hyr with h' | h' | h' <;>
      simp [h, h']

/-- Scattering a list of in-bounds particles adds the sum of their masses. -/
theorem massSum_particles_fold (x_size y_size : ℕ) (ps : List Particle2D)
    (g : List Cell) (hx : 5 ≤ x_size) (hy : 5 ≤ y_size)
    (hlen : g.length = x_size * y_size)
    (hb : ∀ p ∈ ps, posInBounds x_size y_size p.position) :
    massSum (ps.foldl (p2gParticle x_size) g) =
      massSum g + (ps.map Particle2D.mass).sum := by
  induction ps generalizing g with
  | nil => simp
  | cons p ps ih =>
      rw [List.foldl_cons, ih]
      · rw [massSum_p2gParticle x_size y_size _ _ hx hy hlen
          (hb p (List.mem_cons_self _ _))]
        simp only [List.map_cons, List.sum_cons]
        ring
      · rw [p2gParticle_length]; exact hlen
      · intro q hq
        exact hb q (List.mem_cons_of_mem _ hq)

/-- C2: under the positional precondition, the P2G scatter conserves mass:
the total `cell.mass` over all grid cells equals the total particle mass. -/
theorem p2g_mass_conservation (s : Simulation2D) (hwf : s.WF)
    (hx : 5 ≤ s.x_size) (hy : 5 ≤ s.y_size) (hb : s.AllInBounds) :
    massSum (p2gGrid s) = (s.particles.map Particle2D.mass).sum := by
  unfold p2gGrid
  rw [massSum_particles_fold s.x_size s.y_size _ _ hx hy
    (by simp [Simulation2D.WF] at hwf; simp [hwf]) hb]
  simp [massSum, List.map_replicate, List.sum_replicate, Cell.zero]

/-- C2 witness. -/
theorem p2g_mass_conservation_witness :
    massSum (p2gGrid exSim) = (exSim.particles.map Particle2D.mass).sum :=
  p2g_mass_conservation exSim (by decide) (by decide) (by decide)
    (by norm_num [Simulation2D.AllInBounds, posInBounds, exSim, Simulation2D.new])

/-- `cell_diff` always lies in `[-1/2, 1/2)` componentwise. -/
theorem cellDiff_bounds (pos : Vec2) :
    -(1/2 : ℚ) ≤ (cellDiff pos).x ∧ (cellDiff pos).x < 1/2 ∧
    -(1/2 : ℚ) ≤ (cellDiff pos).y ∧ (cellDiff pos).y < 1/2 := by
  have hx1 : (0 : ℚ) ≤ pos.x - ⌊pos.x⌋ := by
    have := Int.floor_le pos.x; linarith
  have hx2 : pos.x - ⌊pos.x⌋ < 1 := by
    have := Int.lt_floor_add_one pos.x; linarith
  have hy1 : (0 : ℚ) ≤ pos.y - ⌊pos.y⌋ := by
    have := Int.floor_le pos.y; linarith
  have hy2 : pos.y - ⌊pos.y⌋ < 1 := by
    have := Int.lt_floor_add_one pos.y; linarith
  unfold cellDiff
  simp only [Vec2.sub_x, Vec2.sub_y, Vec2.floorV_x, Vec2.floorV_y, half]
  refine ⟨by linarith, by linarith, by linarith, by linarith⟩

/-- Each quadratic B-spline weight vector is componentwise non-negative. -/
theorem bsplineWeights_nonneg (pos : Vec2) (w : Vec2)
    (hw : w ∈ bsplineWeights (cellDiff pos)) : 0 ≤ w.x ∧ 0 ≤ w.y := by
  obtain ⟨b1, b2, b3, b4⟩ := cellDiff_bounds pos
  simp only [bsplineWeights, List.mem_cons, List.mem_singleton,
    List.not_mem_nil, or_false] at hw
  rcases hw with rfl | rfl | rfl
  · constructor <;>
      simp only [Vec2.smul_x, Vec2.smul_y, Vec2.sq_x, Vec2.sq_y, Vec2.sub_x,
        Vec2.sub_y, half] <;> positivity
  · constructor <;>
      simp only [Vec2.sub_x, Vec2.sub_y, Vec2.sq_x, Vec2.sq_y, tq, half] <;> nlinarith
  · constructor <;>
      simp only [Vec2.smul_x, Vec2.smul_y, Vec2.sq_x, Vec2.sq_y, Vec2.add_x,
        Vec2.add_y, half] <;> positivity

/-- The default cell read for an all-zero-or-valid grid: `getD` with the zero
default preserves the per-cell invariant. -/
theorem getD_cellInv (g : List Cell)
    (hg : ∀ c ∈ g, 0 ≤ c.mass ∧ (c.mass = 0 → c.velocity = 0)) (i : ℕ) :
    0 ≤ (g.getD i Cell.zero).mass ∧
      ((g.getD i Cell.zero).mass = 0 → (g.getD i Cell.zero).velocity = 0) := by
  by_cases hi : i < g.length
  · rw [List.getD_eq_getElem _ _ hi]
    exact hg _ (List.getElem_mem _)
  · rw [List.getD_eq_default _ _ (le_of_not_lt hi)]
    exact ⟨le_refl 0, fun _ => rfl⟩

/-- One P2G cell update with a non-negative mass contribution preserves the
invariant "mass is non-negative, and zero mass forces zero velocity". -/
theorem p2gCellUpdate_cellInv (x_size : ℕ) (p : Particle2D) (ci : ℤ × ℤ)
    (xow yow : ℤ × Vec2) (g : List Cell)
    (hmc : 0 ≤ xow.2.x * yow.2.y * p.mass)
    (hg : ∀ c ∈ g, 0 ≤ c.mass ∧ (c.mass = 0 → c.velocity = 0)) :
    ∀ c ∈ p2gCellUpdate x_size p ci xow yow g,
      0 ≤ c.mass ∧ (c.mass = 0 → c.velocity = 0) := by
  intro c hc
  unfold p2gCellUpdate at hc
  rcases List.mem_or_eq_of_mem_set hc with h | h
  · exact hg c h
  · subst h
    obtain ⟨ho1, ho2⟩ := getD_cellInv g hg (stencilIndex x_size ci xow.1 yow.1)
    constructor
    · simp only []
      linarith
    · intro h0
      simp only [] at h0 ⊢
      have hz : (g.getD (stencilIndex x_size ci xow.1 yow.1) Cell.zero).mass = 0 ∧
          xow.2.x * yow.2.y * p.mass = 0 := by constructor <;> linarith
      rw [ho2 hz.1, hz.2]
      simp

/-- The per-cell invariant holds for the outcome of one particle's scatter,
assuming the particle's mass is non-negative. -/
theorem p2gParticle_cellInv (x_size : ℕ) (g : List Cell) (p : Particle2D)
    (hm : 0 ≤ p.mass)
    (hg : ∀ c ∈ g, 0 ≤ c.mass ∧ (c.mass = 0 → c.velocity = 0)) :
    ∀ c ∈ p2gParticle x_size g p,
      0 ≤ c.mass ∧ (c.mass = 0 → c.velocity = 0) := by
  unfold p2gParticle
  refine foldl_invariant
    (fun (g' : List Cell) => ∀ c ∈ g', 0 ≤ c.mass ∧ (c.mass = 0 → c.velocity = 0))
    _ _ _ hg ?_
  intro g1 xow h1 hxow
  refine foldl_invariant
    (fun (g' : List Cell) => ∀ c ∈ g', 0 ≤ c.mass ∧ (c.mass = 0 → c.velocity = 0))
    _ _ _ h1 ?_
  intro g2 yow h2 hyow
  have hxw := bsplineWeights_nonneg p.position xow.2
    (List.of_mem_zip (by simpa [offsetWeights] using hxow)).2
  have hyw := bsplineWeights_nonneg p.position yow.2
    (List.of_mem_zip (by simpa [offsetWeights] using hyow)).2
  exact p2gCellUpdate_cellInv x_size p _ xow yow g2
    (mul_nonneg (mul_nonneg hxw.1 hyw.2) hm) h2

/-- The per-cell invariant holds for the whole P2G grid when every particle
mass is non-negative. -/
theorem p2gGrid_cellInv (s : Simulation2D)
    (hm : ∀ p ∈ s.particles, 0 ≤ p.mass) :
    ∀ c ∈ p2gGrid s, 0 ≤ c.mass ∧ (c.mass = 0 → c.velocity = 0) := by
  unfold p2gGrid
  refine foldl_invariant
    (fun (g : List Cell) => ∀ c ∈ g, 0 ≤ c.mass ∧ (c.mass = 0 → c.velocity = 0))
    _ _ _ ?_ ?_
  · intro c hc
    rw [List.eq_of_mem_replicate hc]
    exact ⟨le_refl 0, fun _ => rfl⟩
  · intro g p hgp hp
    exact p2gParticle_cellInv s.x_size g p (hm p hp) hgp

theorem Vec2.sub_def (a b : Vec2) : a - b = ⟨a.x - b.x, a.y - b.y⟩ := rfl

/-- Concrete weights for a particle sitting at the centre of a cell. -/
theorem offsetWeights_at_half : offsetWeights (cellDiff ⟨5/2, 5/2⟩) =
    [(-1, ⟨1/8, 1/8⟩), (0, ⟨3/4, 3/4⟩), (1, ⟨1/8, 1/8⟩)] := by
  norm_num [offsetWeights, bsplineWeights, cellDiff, half, tq, Vec2.smul, Vec2.sq,
    Vec2.floorV, List.zip, Vec2.add_def, Vec2.sub_def]

theorem asI32_at_half : (⟨5/2, 5/2⟩ : Vec2).asI32 = (2, 2) := by
  norm_num [Vec2.asI32, truncQ]

/-- Reading any in-range cell after one P2G update: the written index gets the
accumulated cell, all others are unchanged. -/
theorem p2gCellUpdate_getD (x_size : ℕ) (p : Particle2D) (ci : ℤ × ℤ)
    (xow yow : ℤ × Vec2) (g : List Cell) (j : ℕ) (d : Cell) (hj : j < g.length) :
    (p2gCellUpdate x_size p ci xow yow g).getD j d =
      if j = stencilIndex x_size ci xow.1 yow.1 then
        ⟨(g.getD j Cell.zero).velocity +
           (p.velocity + p.momentum.mulVec (cellDist ci xow.1 yow.1 p.position)).smul
             (xow.2.x * yow.2.y * p.mass),
         (g.getD j Cell.zero).mass + xow.2.x * yow.2.y * p.mass⟩
      else g.getD j d := by
  unfold p2gCellUpdate
  by_cases h : j = stencilIndex x_size ci xow.1 yow.1
  · rw [if_pos h, List.getD_eq_getElem _ _ (by simpa using hj),
      List.getD_eq_getElem _ _ hj]
    subst h
    rw [List.getElem_set_self _]
    rw [List.getD_eq_getElem _ _ hj]
  · rw [if_neg h, List.getD_eq_getElem _ _ (by simpa using hj),
      List.getD_eq_getElem _ _ hj, List.getElem_set_ne (fun hh => h hh.symm) _]

theorem getD_replicate (n i : ℕ) (a d : Cell) (h : i < n) :
    (List.replicate n a).getD i d = a := by
  rw [List.getD_eq_getElem _ _ (by simpa using h)]
  simp

theorem int_toNat_one : Int.toNat 1 = 1 := rfl

theorem int_toNat_two : Int.toNat 2 = 2 := rfl

theorem int_toNat_three : Int.toNat 3 = 3 := rfl

set_option maxHeartbeats 3000000 in
/-- The centre cell after scattering the two cancelling particles: zero
accumulated mass but a non-zero accumulated velocity. -/
theorem p2gGrid_cancelSim_center :
    (p2gGrid cancelSim).getD 12 Cell.zero = ⟨⟨9/16, 0⟩, 0⟩ := by
  have e1 : p2gGrid cancelSim =
      p2gParticle 5 (p2gParticle 5 (List.replicate 25 Cell.zero)
        ⟨⟨5/2, 5/2⟩, ⟨1, 0⟩, 0, 1⟩) ⟨⟨5/2, 5/2⟩, 0, 0, -1⟩ := by
    show List.foldl _ (List.replicate (5 * 5) Cell.zero) _ = _
    norm_num [cancelSim, Simulation2D.new, List.foldl_cons, List.foldl_nil]
  rw [e1]
  unfold p2gParticle p2gCellIndex
  simp only [offsetWeights_at_half, asI32_at_half, List.foldl_cons, List.foldl_nil]
  norm_num only [p2gCellUpdate_getD, p2gCellUpdate_length, List.length_replicate,
    stencilIndex, asU32, int_toNat_one, int_toNat_two, int_toNat_three,
    getD_replicate]
  norm_num [Cell.zero, cellDist, Vec2.smul, Vec2.add_def, Vec2.zero_def,
    Mat2.mulVec_zero_left, Cell.mk.injEq, Vec2.mk.injEq]

/-- C3 counterexample: `cancelSim` meets all the claim's stated
preconditions (5×5 grid, all particle positions inside `[1, size-2]`), yet
after the P2G scatter the centre cell (flat index 12) has zero accumulated
mass and non-zero velocity, and Phase B leaves that non-zero velocity in
place — refuting "cells with zero accumulated mass are left untouched with
zero velocity" as stated. -/
theorem zero_mass_cell_with_velocity :
    cancelSim.WF ∧ 5 ≤ cancelSim.x_size ∧ 5 ≤ cancelSim.y_size ∧
    cancelSim.AllInBounds ∧
    ((p2gGrid cancelSim).getD 12 Cell.zero).mass = 0 ∧
    ((p2gGrid cancelSim).getD 12 Cell.zero).velocity ≠ 0 ∧
    ((updateGrid cancelSim.x_size cancelSim.y_size cancelSim.gravity_times_dt
        (p2gGrid cancelSim)).getD 12 Cell.zero).velocity ≠ 0 := by
  have h12 := p2gGrid_cancelSim_center
  have hlen : 12 < (p2gGrid cancelSim).length := by
    rw [p2gGrid_length]; decide
  refine ⟨by decide, by decide, by decide, ?_, ?_, ?_, ?_⟩
  · norm_num [Simulation2D.AllInBounds, posInBounds, cancelSim, Simulation2D.new]
  · rw [h12]
  · rw [h12]
    intro hcon
    have hx9 := congrArg Vec2.x hcon
    norm_num at hx9
  · rw [updateGrid_getD _ _ _ _ _ hlen, h12]
    unfold resolveCell
    rw [if_neg (by norm_num)]
    intro hcon
    have hx9 := congrArg Vec2.x hcon
    norm_num at hx9

/-- C3 (amended by the counterexample: additionally assume every particle's
mass is non-negative): the scatter and gather stencil indices all lie below
`x_size * y_size` (the grid's length), every accumulated cell mass is
non-negative, and a cell with zero accumulated mass has zero velocity and is
left untouched by the grid-velocity resolution pass, so the division by
`cell.mass` only happens for cells with strictly positive mass. -/
theorem step_safety (s : Simulation2D) (hwf : s.WF) (hx : 5 ≤ s.x_size)
    (hy : 5 ≤ s.y_size) (hb : s.AllInBounds)
    (hm : ∀ p ∈ s.particles, 0 ≤ p.mass) :
    (p2gGrid s).length = s.x_size * s.y_size ∧
    (∀ p ∈ s.particles, ∀ xo yo : ℤ, -1 ≤ xo → xo ≤ 1 → -1 ≤ yo → yo ≤ 1 →
        stencilIndex s.x_size (p2gCellIndex p) xo yo < s.x_size * s.y_size ∧
        stencilIndex s.x_size (g2pCellIndex p) xo yo < s.x_size * s.y_size) ∧
    (∀ c ∈ p2gGrid s, 0 ≤ c.mass) ∧
    (∀ i : ℕ, ((p2gGrid s).getD i Cell.zero).mass = 0 →
        ((p2gGrid s).getD i Cell.zero).velocity = 0 ∧
        (updateGrid s.x_size s.y_size s.gravity_times_dt (p2gGrid s)).getD i Cell.zero
          = (p2gGrid s).getD i Cell.zero) := by
  have hlen : (p2gGrid s).length = s.x_size * s.y_size := by
    rw [p2gGrid_length]; exact hwf
  have hinv := p2gGrid_cellInv s hm
  refine ⟨hlen, ?_, fun c hc => (hinv c hc).1, ?_⟩
  · intro p hp xo yo h1 h2 h3 h4
    have := stencilIndex_lt s.x_size s.y_size p.position xo yo hx hy (hb p hp)
      h1 h2 h3 h4
    exact ⟨this, this⟩
  · intro i h0
    have hvel : ((p2gGrid s).getD i Cell.zero).velocity = 0 := by
      by_cases hi : i < (p2gGrid s).length
      · rw [List.getD_eq_getElem _ _ hi] at h0 ⊢
        exact (hinv _ (List.getElem_mem _)).2 h0
      · rw [List.getD_eq_default _ _ (le_of_not_lt hi)]
        rfl
    refine ⟨hvel, ?_⟩
    by_cases hi : i < (p2gGrid s).length
    · rw [updateGrid_getD _ _ _ _ _ hi]
      unfold resolveCell
      rw [if_neg (by rw [h0]; exact lt_irrefl 0)]
    · rw [List.getD_eq_default _ _ (le_of_not_lt hi),
        List.getD_eq_default _ _ (by rw [updateGrid_length]; exact le_of_not_lt hi)]

/-- C3 witness. -/
theorem step_safety_witness :
    (p2gGrid exSim).length = exSim.x_size * exSim.y_size ∧
    (∀ p ∈ exSim.particles, ∀ xo yo : ℤ, -1 ≤ xo → xo ≤ 1 → -1 ≤ yo → yo ≤ 1 →
        stencilIndex exSim.x_size (p2gCellIndex p) xo yo < exSim.x_size * exSim.y_size ∧
        stencilIndex exSim.x_size (g2pCellIndex p) xo yo < exSim.x_size * exSim.y_size) ∧
    (∀ c ∈ p2gGrid exSim, 0 ≤ c.mass) ∧
    (∀ i : ℕ, ((p2gGrid exSim).getD i Cell.zero).mass = 0 →
        ((p2gGrid exSim).getD i Cell.zero).velocity = 0 ∧
        (updateGrid exSim.x_size exSim.y_size exSim.gravity_times_dt
            (p2gGrid exSim)).getD i Cell.zero = (p2gGrid exSim).getD i Cell.zero) :=
  step_safety exSim (by decide) (by decide) (by decide)
    (by norm_num [Simulation2D.AllInBounds, posInBounds, exSim, Simulation2D.new])
    (by norm_num [exSim, Simulation2D.new])

/-- Reading any index of an all-zero-velocity grid gives zero velocity. -/
theorem getD_velocity_zero (g : List Cell) (h : ∀ c ∈ g, c.velocity = 0) (i : ℕ) :
    (g.getD i Cell.zero).velocity = 0 := by
  by_cases hi : i < g.length
  · rw [List.getD_eq_getElem _ _ hi]
    exact h _ (List.getElem_mem _)
  · rw [List.getD_eq_default _ _ (le_of_not_lt hi)]
    rfl

/-- A particle with zero velocity and zero affine momentum scatters zero
velocity: one P2G cell update keeps all cell velocities zero. -/
theorem p2gCellUpdate_velZero (x_size : ℕ) (p : Particle2D) (ci : ℤ × ℤ)
    (xow yow : ℤ × Vec2) (g : List Cell) (hv : p.velocity = 0)
    (hmo : p.momentum = 0) (hg : ∀ c ∈ g, c.velocity = 0) :
    ∀ c ∈ p2gCellUpdate x_size p ci xow yow g, c.velocity = 0 := by
  intro c hc
  unfold p2gCellUpdate at hc
  rcases List.mem_or_eq_of_mem_set hc with h | h
  · exact hg c h
  · subst h
    have h0 := getD_velocity_zero g hg (stencilIndex x_size ci xow.1 yow.1)
    simp only []
    rw [h0, hv, hmo]
    simp

/-- P2G of a zero-velocity, zero-momentum particle keeps the grid's
velocities zero. -/
theorem p2gParticle_velZero (x_size : ℕ) (g : List Cell) (p : Particle2D)
    (hv : p.velocity = 0) (hmo : p.momentum = 0)
    (hg : ∀ c ∈ g, c.velocity = 0) :
    ∀ c ∈ p2gParticle x_size g p, c.velocity = 0 := by
  unfold p2gParticle
  refine foldl_invariant (fun (g' : List Cell) => ∀ c ∈ g', c.velocity = 0)
    _ _ _ hg ?_
  intro g1 xow h1 _
  refine foldl_invariant (fun (g' : List Cell) => ∀ c ∈ g', c.velocity = 0)
    _ _ _ h1 ?_
  intro g2 yow h2 _
  exact p2gCellUpdate_velZero x_size p _ xow yow g2 hv hmo h2

/-- With all particles motionless, the whole P2G grid has zero velocities. -/
theorem p2gGrid_velZero (s : Simulation2D)
    (hz : ∀ p ∈ s.particles, p.velocity = 0 ∧ p.momentum = 0) :
    ∀ c ∈ p2gGrid s, c.velocity = 0 := by
  unfold p2gGrid
  refine foldl_invariant (fun (g : List Cell) => ∀ c ∈ g, c.velocity = 0)
    _ _ _ ?_ ?_
  · intro c hc
    rw [List.eq_of_mem_replicate hc]
    rfl
  · intro g p hgp hp
    exact p2gParticle_velZero s.x_size g p (hz p hp).1 (hz p hp).2 hgp

/-- With zero gravity, resolving a zero-velocity cell keeps it at zero. -/
theorem resolveCell_velZero (x_size y_size : ℕ) (i : ℕ) (c : Cell)
    (hv : c.velocity = 0) : (resolveCell x_size y_size 0 i c).velocity = 0 := by
  unfold resolveCell
  by_cases h : 0 < c.mass
  · rw [if_pos h]
    apply Vec2.ext_xy
    · simp only []
      split
      · rfl
      · simp [hv, Vec2.sdiv]
    · simp only []
      split
      · rfl
      · simp [hv, Vec2.sdiv]
  · rw [if_neg h]
    exact hv

/-- With zero gravity, Phase B keeps an all-zero-velocity grid all zero. -/
theorem updateGrid_velZero (x_size y_size : ℕ) (g : List Cell)
    (hg : ∀ c ∈ g, c.velocity = 0) :
    ∀ c ∈ updateGrid x_size y_size 0 g, c.velocity = 0 := by
  intro c hc
  obtain ⟨⟨i, hi⟩, rfl⟩ := List.mem_iff_get.mp hc
  have hi' : i < g.length := by
    simpa [updateGrid_length] using hi
  have he : (updateGrid x_size y_size 0 g).get ⟨i, hi⟩ =
      (updateGrid x_size y_size 0 g).getD i Cell.zero := by
    rw [List.getD_eq_getElem _ _ hi]
    simp
  rw [he, updateGrid_getD _ _ _ _ _ hi']
  exact resolveCell_velZero _ _ _ _ (getD_velocity_zero g hg i)

/-- From an all-zero-velocity grid, G2P leaves a motionless in-bounds
particle entirely unchanged. -/
theorem g2pParticle_fixed (x_size y_size : ℕ) (dt : ℚ) (grid : List Cell)
    (p : Particle2D) (hgrid : ∀ c ∈ grid, c.velocity = 0)
    (hv : p.velocity = 0) (hmo : p.momentum = 0)
    (hb : posInBounds x_size y_size p.position) :
    g2pParticle x_size y_size dt grid p = p := by
  obtain ⟨h1, h2, h3, h4⟩ := hb
  unfold g2pParticle
  have hfold : ∀ (l : List (ℤ × Vec2)),
      (l.foldl (fun a1 xow => l.foldl
          (fun a2 yow => g2pAccum x_size grid p (g2pCellIndex p) a2 xow yow) a1)
        ((0 : Mat2), (0 : Vec2))) = ((0 : Mat2), (0 : Vec2)) := by
    intro l
    refine foldl_invariant (fun (a : Mat2 × Vec2) => a = ((0 : Mat2), (0 : Vec2)))
      _ _ _ rfl ?_
    intro a1 xow ha _
    refine foldl_invariant (fun (a : Mat2 × Vec2) => a = ((0 : Mat2), (0 : Vec2)))
      _ _ _ ha ?_
    intro a2 yow ha2 _
    subst ha2
    unfold g2pAccum
    have h0 := getD_velocity_zero grid hgrid
      (stencilIndex x_size (g2pCellIndex p) xow.1 yow.1)
    simp only []
    rw [h0]
    rw [Prod.ext_iff]
    constructor
    · simp only []
      apply Mat2.ext_cols <;> simp [Mat2.fromCols]
    · simp only []
      apply Vec2.ext_xy <;> simp
  simp only []
  rw [hfold (offsetWeights (cellDiff p.position))]
  apply Particle2D.ext_fields
  · simp only []
    apply Vec2.ext_xy
    · simp only [Vec2.smul_zero_left, Vec2.add_zero_v]
      rw [min_eq_left h2, max_eq_right h1]
    · simp only [Vec2.smul_zero_left, Vec2.add_zero_v]
      rw [min_eq_left h4, max_eq_right h3]
  · exact hv.symm
  · rw [hmo]
    apply Mat2.ext_cols <;> simp
  · rfl

/-- One `step` of a zero-gravity simulation whose particles are motionless
and in bounds returns the particle list unchanged. -/
theorem step_zero_motion_once (s : Simulation2D) (hg : s.gravity_times_dt = 0)
    (hz : ∀ p ∈ s.particles, p.velocity = 0 ∧ p.momentum = 0 ∧
        posInBounds s.x_size s.y_size p.position) :
    s.step.particles = s.particles := by
  have hgrid0 : ∀ c ∈ p2gGrid s, c.velocity = 0 :=
    p2gGrid_velZero s (fun p hp => ⟨(hz p hp).1, (hz p hp).2.1⟩)
  have hgrid : ∀ c ∈ updateGrid s.x_size s.y_size s.gravity_times_dt (p2gGrid s),
      c.velocity = 0 := by
    rw [hg]
    exact updateGrid_velZero s.x_size s.y_size (p2gGrid s) hgrid0
  show s.particles.map _ = s.particles
  rw [List.map_congr_left (fun p hp =>
    g2pParticle_fixed s.x_size s.y_size s.dt _ p hgrid (hz p hp).1 (hz p hp).2.1
      (hz p hp).2.2)]
  exact List.map_id _

/-- `step` never changes the three global fields used by the zero-motion
argument, even after iteration. -/
theorem iterate_step_frame (s : Simulation2D) (n : ℕ) :
    (Simulation2D.step^[n] s).x_size = s.x_size ∧
    (Simulation2D.step^[n] s).y_size = s.y_size ∧
    (Simulation2D.step^[n] s).gravity_times_dt = s.gravity_times_dt := by
  induction n with
  | zero => exact ⟨rfl, rfl, rfl⟩
  | succ n ih =>
      rw [Function.iterate_succ_apply']
      exact ⟨ih.1, ih.2.1, ih.2.2⟩

/-- C7: with zero gravity, all particle velocities and affine momenta zero,
and all positions inside `[1, size-2]`, any number of `step` calls leaves
the particle sequence (positions, velocities, momenta, masses) identical. -/
theorem zero_motion_fixed_point (s : Simulation2D) (hx : 5 ≤ s.x_size)
    (hy : 5 ≤ s.y_size) (hg : s.gravity_times_dt = 0)
    (hz : ∀ p ∈ s.particles, p.velocity = 0 ∧ p.momentum = 0 ∧
        posInBounds s.x_size s.y_size p.position) (n : ℕ) :
    (Simulation2D.step^[n] s).particles = s.particles := by
  induction n with
  | zero => rfl
  | succ n ih =>
      rw [Function.iterate_succ_apply']
      obtain ⟨hfx, hfy, hfg⟩ := iterate_step_frame s n
      rw [step_zero_motion_once (Simulation2D.step^[n] s) (by rw [hfg]; exact hg)]
      · exact ih
      · intro p hp
        rw [ih] at hp
        rw [hfx, hfy]
        exact hz p hp

/-- C7 witness. -/
theorem zero_motion_fixed_point_witness :
    (Simulation2D.step^[3] zSim).particles = zSim.particles :=
  zero_motion_fixed_point zSim (by decide) (by decide)
    (by
      apply Vec2.ext_xy <;>
        norm_num [zSim, Simulation2D.new, Vec2.smul])
    (by
      intro p hp
      simp only [zSim, Simulation2D.new, List.mem_singleton] at hp
      subst hp
      refine ⟨rfl, rfl, ?_⟩
      norm_num [posInBounds, zSim, Simulation2D.new])
    3
